import Mathlib

/-!
A verification development for the g-news-scraper service
(`app/main.py`, `app/services/scraper.py`, `app/config.py`).

The Python code is shallowly embedded: pure helpers become Lean functions,
the Firestore document store becomes an explicit state record threaded
through the handlers, and exceptions raised by store operations are
modelled by error flags on the store state (the Python code catches every
such exception at the call site, so the embedded functions are total).

External library functions used by the code are modelled faithfully from
their reference implementations:
* `urllib.parse.urljoin` (CPython 3.11 `urllib/parse.py`), restricted to
  inputs free of ASCII control characters and of `;`-parameters (the
  WHATWG control-character stripping and the `params` component of
  `urlparse` are not modelled; neither affects any input considered here);
* `hashlib.sha256` (FIPS 180-4) over the UTF-8 encoding of the input.
-/

namespace GNews

/-! ## Model of `urllib.parse` (CPython 3.11) -/

/-- `uses_relative` from `urllib/parse.py`. -/
def uses_relative : List String :=
  ["", "ftp", "http", "gopher", "nntp", "imap", "wais", "file", "https",
   "shttp", "mms", "prospero", "rtsp", "rtsps", "rtspu", "sftp", "svn",
   "svn+ssh", "ws", "wss"]

/-- `uses_netloc` from `urllib/parse.py`. -/
def uses_netloc : List String :=
  ["", "ftp", "http", "gopher", "nntp", "telnet", "imap", "wais", "file",
   "mms", "https", "shttp", "snews", "prospero", "rtsp", "rtsps", "rtspu",
   "rsync", "svn", "svn+ssh", "sftp", "nfs", "git", "git+ssh", "ws", "wss"]

/-- Characters allowed in a URL scheme (`scheme_chars` in `urllib/parse.py`). -/
def isSchemeChar (c : Char) : Bool :=
  c.isAlpha || c.isDigit || c == '+' || c == '-' || c == '.'

/-- Scheme extraction step of `urlsplit`: if the URL starts with
`<letter><scheme-chars>*:` the lowercased scheme and the remainder are
returned, otherwise `none`.  (CPython phrases this as: the prefix before
the first `:` is nonempty, starts with an ASCII letter and consists of
scheme characters; scanning the maximal scheme-character prefix and
requiring the next character to be `:` is equivalent, since `:` is not a
scheme character.) -/
def splitScheme : List Char → Option (List Char × List Char)
  | [] => none
  | c :: rest =>
    if c.isAlpha then
      match (rest.span isSchemeChar).2 with
      | c2 :: post =>
        if c2 = ':' then some ((c :: (rest.span isSchemeChar).1).map Char.toLower, post)
        else none
      | [] => none
    else none

/-- `_splitnetloc`: the netloc runs up to the first `/`, `?` or `#`. -/
def splitNetloc (l : List Char) : List Char × List Char :=
  l.span (fun c => !(c == '/' || c == '?' || c == '#'))

/-- Split a character list at the first occurrence of `ch`; if `ch` does not
occur the second component is empty (matching Python `s.split(ch, 1)`
guarded by `ch in s`). -/
def splitAtChar (ch : Char) (l : List Char) : List Char × List Char :=
  match l.span (fun c => !(c == ch)) with
  | (a, []) => (a, [])
  | (a, _ :: b) => (a, b)

/-- Result of `urlsplit` (the `params` component of `urlparse` is not
modelled, see module comment). -/
structure SplitResult where
  scheme : String
  netloc : String
  path : String
  query : String
  fragment : String
deriving DecidableEq, Repr

/-- The scheme-free part of `urlsplit`: netloc, then fragment, then query. -/
def urlsplitRest (l : List Char) : String × String × String × String :=
  let (netloc, rest) :=
    if l.take 2 = ['/', '/'] then splitNetloc (l.drop 2) else ([], l)
  let (rest, fragment) := splitAtChar '#' rest
  let (path, query) := splitAtChar '?' rest
  (String.mk netloc, String.mk path, String.mk query, String.mk fragment)

/-- `urllib.parse.urlsplit url d` with `allow_fragments=True`; `d` is the
default scheme used when the URL carries none of its own. -/
def urlsplit (url d : String) : SplitResult :=
  match splitScheme url.toList with
  | some (sch, rest) =>
    let (n, p, q, f) := urlsplitRest rest
    ⟨String.mk sch, n, p, q, f⟩
  | none =>
    let (n, p, q, f) := urlsplitRest url.toList
    ⟨d, n, p, q, f⟩

/-- `urllib.parse.urlunsplit` (CPython 3.11). -/
def urlunsplit (r : SplitResult) : String :=
  let u0 := r.path
  let u1 :=
    if r.netloc ≠ "" ∨
       (r.scheme ≠ "" ∧ uses_netloc.contains r.scheme ∧ u0.toList.take 2 ≠ ['/', '/']) then
      "//" ++ r.netloc ++ (if u0 ≠ "" ∧ u0.toList.take 1 ≠ ['/'] then "/" ++ u0 else u0)
    else u0
  let u2 := if r.scheme ≠ "" then r.scheme ++ ":" ++ u1 else u1
  let u3 := if r.query ≠ "" then u2 ++ "?" ++ r.query else u2
  if r.fragment ≠ "" then u3 ++ "#" ++ r.fragment else u3

/-- Python `s.split(ch)` for a single-character separator, structurally
over the character list. -/
def splitOnChar (ch : Char) : List Char → List (List Char)
  | [] => [[]]
  | c :: rest =>
    if c == ch then [] :: splitOnChar ch rest
    else
      match splitOnChar ch rest with
      | [] => [[c]]
      | g :: gs => (c :: g) :: gs

/-- Python `path.split('/')`. -/
def splitSlash (s : String) : List String :=
  (splitOnChar '/' s.toList).map String.mk

/-- Keep the first and last element of a list and drop empty strings from
the middle (Python `segments[1:-1] = filter(None, segments[1:-1])`). -/
def filterMiddle : List String → List String
  | [] => []
  | [a] => [a]
  | a :: rest => a :: (rest.dropLast.filter (· != "") ++ [rest.getLastD ""])

/-- The `resolved_path` loop of `urljoin`: `..` pops (ignoring underflow),
`.` is dropped, everything else is appended.  The accumulator holds the
output in reverse. -/
def resolveSegs : List String → List String → List String
  | acc, [] => acc.reverse
  | acc, seg :: rest =>
    if seg = ".." then resolveSegs (acc.drop 1) rest
    else if seg = "." then resolveSegs acc rest
    else resolveSegs (seg :: acc) rest

/-- The relative-path merge of `urljoin`: combine the base path's directory
with the reference path's segments and normalize `.`/`..`. -/
def joinResolvePath (bpath rpath : String) : String :=
  let base_parts := splitSlash bpath
  let base_parts := if base_parts.getLastD "" ≠ "" then base_parts.dropLast else base_parts
  let segments :=
    if rpath.toList.take 1 = ['/'] then splitSlash rpath
    else filterMiddle (base_parts ++ splitSlash rpath)
  let resolved := resolveSegs [] segments
  let resolved :=
    if segments.getLastD "" = "." ∨ segments.getLastD "" = ".." then resolved ++ [""]
    else resolved
  let joined := String.intercalate "/" resolved
  if joined = "" then "/" else joined

/-- `urllib.parse.urljoin` (CPython 3.11). -/
def urljoin (base url : String) : String :=
  if base = "" then url
  else if url = "" then base
  else
    let b := urlsplit base ""
    let r := urlsplit url b.scheme
    if r.scheme ≠ b.scheme ∨ ¬ uses_relative.contains r.scheme then url
    else if uses_netloc.contains r.scheme ∧ r.netloc ≠ "" then
      urlunsplit ⟨r.scheme, r.netloc, r.path, r.query, r.fragment⟩
    else
      let netloc := if uses_netloc.contains r.scheme then b.netloc else r.netloc
      if r.path = "" then
        urlunsplit ⟨r.scheme, netloc, b.path,
                    if r.query = "" then b.query else r.query, r.fragment⟩
      else
        urlunsplit ⟨r.scheme, netloc, joinResolvePath b.path r.path, r.query, r.fragment⟩

/-! ## Model of CPython `int(str)` (ASCII inputs)

`int()` strips ASCII whitespace, accepts one optional sign, and then a
nonempty digit string in which single underscores may separate digits.
(Unicode digits and Unicode whitespace are not modelled.) -/

/-- ASCII whitespace accepted by Python `int`. -/
def isPySpace (c : Char) : Bool :=
  c == ' ' || c == '\t' || c == '\n' || c == '\r' || c == '\x0b' || c == '\x0c'

/-- Digit string after its first digit: digits, with single underscores
allowed only between digits. -/
def pyDigitsAux : List Char → Nat → Option Nat
  | [], acc => some acc
  | '_' :: c :: rest, acc =>
    if c.isDigit then pyDigitsAux rest (acc * 10 + (c.toNat - 48)) else none
  | c :: rest, acc =>
    if c.isDigit then pyDigitsAux rest (acc * 10 + (c.toNat - 48)) else none

/-- A nonempty Python digit string, starting with a digit. -/
def pyDigitsStart : List Char → Option Nat
  | [] => none
  | c :: rest => if c.isDigit then pyDigitsAux rest (c.toNat - 48) else none

/-- CPython `int(s)` on an ASCII string: `some` value, or `none` when the
call raises `ValueError`. -/
def pyInt? (s : String) : Option Int :=
  let cs := ((s.toList.dropWhile isPySpace).reverse.dropWhile isPySpace).reverse
  match cs with
  | '+' :: rest => (pyDigitsStart rest).map Int.ofNat
  | '-' :: rest => (pyDigitsStart rest).map (fun n => -(Int.ofNat n))
  | rest => (pyDigitsStart rest).map Int.ofNat

/-! ## Model of `hashlib.sha256` (FIPS 180-4) and UTF-8 encoding -/

/-- Arithmetic is over `Nat` reduced modulo `2^32`. -/
def m32 : Nat := 4294967296

/-- Rotate a 32-bit word right by `n` places. -/
def rotr (n x : Nat) : Nat := ((x >>> n) ||| (x <<< (32 - n))) % m32

def smallSigma0 (x : Nat) : Nat := (rotr 7 x) ^^^ (rotr 18 x) ^^^ (x >>> 3)

def smallSigma1 (x : Nat) : Nat := (rotr 17 x) ^^^ (rotr 19 x) ^^^ (x >>> 10)

def bigSigma0 (x : Nat) : Nat := (rotr 2 x) ^^^ (rotr 13 x) ^^^ (rotr 22 x)

def bigSigma1 (x : Nat) : Nat := (rotr 6 x) ^^^ (rotr 11 x) ^^^ (rotr 25 x)

def chFn (x y z : Nat) : Nat := (x &&& y) ^^^ ((x ^^^ 4294967295) &&& z)

def majFn (x y z : Nat) : Nat := (x &&& y) ^^^ (x &&& z) ^^^ (y &&& z)

/-- The 64 round constants of SHA-256 (decimal rendering of the FIPS 180-4
table). -/
def sha256K : List Nat :=
  [1116352408, 1899447441, 3049323471, 3921009573, 961987163, 1508970993,
   2453635748, 2870763221, 3624381080, 310598401, 607225278, 1426881987,
   1925078388, 2162078206, 2614888103, 3248222580, 3835390401, 4022224774,
   264347078, 604807628, 770255983, 1249150122, 1555081692, 1996064986,
   2554220882, 2821834349, 2952996808, 3210313671, 3336571891, 3584528711,
   113926993, 338241895, 666307205, 773529912, 1294757372, 1396182291,
   1695183700, 1986661051, 2177026350, 2456956037, 2730485921, 2820302411,
   3259730800, 3345764771, 3516065817, 3600352804, 4094571909, 275423344,
   430227734, 506948616, 659060556, 883997877, 958139571, 1322822218,
   1537002063, 1747873779, 1955562222, 2024104815, 2227730452, 2361852424,
   2428436474, 2756734187, 3204031479, 3329325298]

/-- The initial hash value of SHA-256 (decimal rendering). -/
def sha256H0 : List Nat :=
  [1779033703, 3144134277, 1013904242, 2773480762,
   1359893119, 2600822924, 528734635, 1541459225]

/-- Message-schedule extension; the accumulator holds the schedule so far
in reverse (head is the most recent word). -/
def wExtend : Nat → List Nat → List Nat
  | 0, acc => acc.reverse
  | n + 1, acc =>
    wExtend n
      (((smallSigma1 (acc.getD 1 0) + acc.getD 6 0 +
         smallSigma0 (acc.getD 14 0) + acc.getD 15 0) % m32) :: acc)

/-- One compression round; the state is the eight working variables. -/
def roundStep (st : List Nat) (kw : Nat × Nat) : List Nat :=
  let a := st.getD 0 0
  let b := st.getD 1 0
  let c := st.getD 2 0
  let d := st.getD 3 0
  let e := st.getD 4 0
  let f := st.getD 5 0
  let g := st.getD 6 0
  let h := st.getD 7 0
  let t1 := (h + bigSigma1 e + chFn e f g + kw.1 + kw.2) % m32
  let t2 := (bigSigma0 a + majFn a b c) % m32
  [(t1 + t2) % m32, a, b, c, (d + t1) % m32, e, f, g]

/-- Compress one 16-word block into the running hash value. -/
def sha256Block (hs : List Nat) (block : List Nat) : List Nat :=
  let w := wExtend 48 block.reverse
  let fin := (sha256K.zip w).foldl roundStep hs
  List.zipWith (fun x y => (x + y) % m32) hs fin

/-- Fold the compression over the word stream, 16 words per block. -/
def sha256Words : List Nat → List Nat → List Nat
  | hs, w0 :: w1 :: w2 :: w3 :: w4 :: w5 :: w6 :: w7 ::
        w8 :: w9 :: w10 :: w11 :: w12 :: w13 :: w14 :: w15 :: rest =>
    sha256Words
      (sha256Block hs [w0, w1, w2, w3, w4, w5, w6, w7,
                       w8, w9, w10, w11, w12, w13, w14, w15]) rest
  | hs, _ => hs

/-- Big-endian bytes of `n`, `k` bytes wide. -/
def beBytes : Nat → Nat → List Nat
  | 0, _ => []
  | k + 1, n => ((n >>> (8 * k)) % 256) :: beBytes k n

/-- SHA-256 padding: `0x80`, zeros to 56 mod 64, then the 64-bit bit length. -/
def padMessage (msg : List Nat) : List Nat :=
  let z := (119 - msg.length % 64) % 64
  msg ++ [0x80] ++ List.replicate z 0 ++ beBytes 8 (msg.length * 8)

/-- Group bytes into big-endian 32-bit words. -/
def bytesToWords : List Nat → List Nat
  | b0 :: b1 :: b2 :: b3 :: rest =>
    (b0 * 16777216 + b1 * 65536 + b2 * 256 + b3) :: bytesToWords rest
  | _ => []

/-- Lowercase hexadecimal digit. -/
def hexDigit (n : Nat) : Char :=
  if n < 10 then Char.ofNat (48 + n) else Char.ofNat (87 + n)

/-- Eight-hex-digit rendering of a 32-bit word. -/
def wordToHex (n : Nat) : String :=
  String.mk ((List.range 8).map (fun k => hexDigit ((n >>> (4 * (7 - k))) &&& 15)))

/-- `hashlib.sha256(bytes).hexdigest()`. -/
def sha256Hex (msg : List Nat) : String :=
  String.join ((sha256Words sha256H0 (bytesToWords (padMessage msg))).map wordToHex)

/-- UTF-8 encoding of one code point. -/
def utf8Char (n : Nat) : List Nat :=
  if n < 0x80 then [n]
  else if n < 0x800 then
    [0xc0 ||| (n >>> 6), 0x80 ||| (n &&& 63)]
  else if n < 0x10000 then
    [0xe0 ||| (n >>> 12), 0x80 ||| ((n >>> 6) &&& 63), 0x80 ||| (n &&& 63)]
  else
    [0xf0 ||| (n >>> 18), 0x80 ||| ((n >>> 12) &&& 63),
     0x80 ||| ((n >>> 6) &&& 63), 0x80 ||| (n &&& 63)]

/-- `str.encode('utf-8')`. -/
def utf8Encode (s : String) : List Nat :=
  (s.toList.map (fun c => utf8Char c.toNat)).flatten

/-! ## `app/main.py`: document id helper -/

/-- `create_article_doc_id` (`app/main.py`): the SHA-256 hex digest of the
UTF-8 encoding of the article URL. -/
def create_article_doc_id (article_url : String) : String :=
  sha256Hex (utf8Encode article_url)

/-! ## DOM model for BeautifulSoup

The scraper only ever calls `soup.select(sel)`,
`element.select_one(sel)`, `element.get_text(strip=True)` and
`element.get('href')`, so parsed markup is modelled by those observations
alone.  `get_text` yields the already-stripped text. -/

/-- A parsed HTML element. -/
inductive Element where
  | mk (children : String → Option Element) (text : String) (href : Option String)

/-- `element.select_one(sel)`. -/
def Element.select_one : Element → String → Option Element
  | .mk f _ _, sel => f sel

/-- `element.get_text(strip=True)`. -/
def Element.get_text : Element → String
  | .mk _ t _ => t

/-- `element.get('href')`. -/
def Element.get_href : Element → Option String
  | .mk _ _ h => h

/-- A parsed HTML document (`BeautifulSoup` object). -/
structure Soup where
  select : String → List Element

/-! ## `app/services/scraper.py` -/

/-- The selector configuration the extractor reads from `app.config`.
A required selector read with `config.get(key, '')` is the empty string
when missing; the optional snippet selector is read with `config.get(key)`
and is `none` when missing. -/
structure ScraperConfig where
  container_selector : String
  title_selector : String
  link_selector : String
  source_selector : String
  snippet_selector : Option String
deriving DecidableEq, Repr

/-- The article-metadata dict built by `extract_articles_from_soup`. -/
structure ArticleData where
  title : String
  article_url : String
  source_name : String
  snippet : Option String
  google_news_url : String
deriving DecidableEq, Repr

/-- `_resolve_url` (`app/services/scraper.py`): delegate to `urljoin`. -/
def resolve_url (base_url link : String) : String :=
  urljoin base_url link

/-- The per-element body of the extraction loop: select title, link,
source and optional snippet inside the block, skip the block (`none`)
unless title text, link href and source text are all truthy, and resolve
the href against the base URL. -/
def processElement (cfg : ScraperConfig) (base_url : String) (el : Element) :
    Option ArticleData :=
  let title? := (el.select_one cfg.title_selector).map Element.get_text
  let rawLink? := (el.select_one cfg.link_selector).bind Element.get_href
  let source? := (el.select_one cfg.source_selector).map Element.get_text
  let snippet : Option String :=
    match cfg.snippet_selector with
    | some s => if s ≠ "" then (el.select_one s).map Element.get_text else none
    | none => none
  match title?, rawLink?, source? with
  | some title, some rawLink, some source =>
    if title = "" ∨ rawLink = "" ∨ source = "" then none
    else
      let resolved := resolve_url base_url rawLink
      some ⟨title, resolved, source, snippet, resolved⟩
  | _, _, _ => none

/-- `extract_articles_from_soup` (`app/services/scraper.py`). -/
def extract_articles_from_soup (soup : Option Soup) (base_url : String)
    (cfg : ScraperConfig) : List ArticleData :=
  match soup with
  | none => []
  | some s =>
    if cfg.container_selector = "" ∨ cfg.title_selector = "" ∨
       cfg.link_selector = "" ∨ cfg.source_selector = "" then []
    else
      let article_elements := s.select cfg.container_selector
      if article_elements.isEmpty then []
      else article_elements.filterMap (processElement cfg base_url)

/-! ## Firestore model

Documents are keyed by `(collection, docId)`.  A raised exception inside
`doc_ref.get()` resp. `doc_ref.set()` is modelled by the `getFails` resp.
`setFails` flag (the Python code catches the exception at the call site);
`queryFails` plays the same role for the read query of `/news/google`.
`firestore.SERVER_TIMESTAMP` is modelled by the monotone counter `now`. -/

/-- A stored document: the article dict plus the `scraped_at` timestamp. -/
structure ArticleDoc where
  data : ArticleData
  scraped_at : Nat
deriving DecidableEq, Repr

/-- The document-store state. -/
structure Firestore where
  docs : List ((String × String) × ArticleDoc)
  now : Nat
  getFails : Bool
  setFails : Bool
  queryFails : Bool

/-- Number of stored documents under a key. -/
def countKey (docs : List ((String × String) × ArticleDoc))
    (k : String × String) : Nat :=
  (docs.filter (fun p => p.1 == k)).length

/-- The first stored document under a key, if any. -/
def getDoc (docs : List ((String × String) × ArticleDoc))
    (k : String × String) : Option ArticleDoc :=
  (docs.find? (fun p => p.1 == k)).map (fun p => p.2)

/-- `doc_ref.set(...)`: an upsert, replacing any document at the key. -/
def upsertDoc (docs : List ((String × String) × ArticleDoc))
    (k : String × String) (d : ArticleDoc) :
    List ((String × String) × ArticleDoc) :=
  docs.filter (fun p => p.1 != k) ++ [(k, d)]

/-- `check_article_exists` (`app/services/scraper.py`): `True` when the
client is `None` or the lookup raises (fail-safe), else the document's
existence. -/
def check_article_exists (db : Option Firestore) (collection_name doc_id : String) :
    Bool :=
  match db with
  | none => true
  | some fs =>
    if fs.getFails then true
    else fs.docs.any (fun p => p.1 == (collection_name, doc_id))

/-- `save_new_article` (`app/services/scraper.py`): `False` when the client
is `None` or the write raises; otherwise upsert the article together with
the server timestamp and return `True`.  The (possibly updated) store is
returned alongside, since the Python store mutates server-side state. -/
def save_new_article (db : Option Firestore) (collection_name doc_id : String)
    (article_data : ArticleData) : Bool × Option Firestore :=
  match db with
  | none => (false, none)
  | some fs =>
    if fs.setFails then (false, some fs)
    else
      (true, some { fs with
        docs := upsertDoc fs.docs (collection_name, doc_id) ⟨article_data, fs.now⟩,
        now := fs.now + 1 })

/-! ## `app/main.py`: the scrape-task handler -/

/-- What happened to one extracted article inside the storage loop. -/
inductive Outcome where
  | added
  | existing
  | failed
deriving DecidableEq, Repr

/-- One iteration of the storage loop of `handle_scrape_task`: skip
articles with a falsy URL, hash the URL into the document id, consult
`check_article_exists`, and save when new. -/
def process_article (db : Option Firestore) (coll : String) (a : ArticleData) :
    Outcome × Option Firestore :=
  if a.article_url = "" then (.failed, db)
  else
    let doc_id := create_article_doc_id a.article_url
    if check_article_exists db coll doc_id then (.existing, db)
    else
      match save_new_article db coll doc_id a with
      | (true, db2) => (.added, db2)
      | (false, db2) => (.failed, db2)

/-- Counters accumulated by the storage loop, plus the final store. -/
structure LoopResult where
  added : Nat
  existing : Nat
  failed : Nat
  db : Option Firestore

/-- The storage loop of `handle_scrape_task` over the extracted articles. -/
def scrape_loop (db : Option Firestore) (coll : String) :
    List ArticleData → Nat → Nat → Nat → LoopResult
  | [], ad, ex, fl => ⟨ad, ex, fl, db⟩
  | a :: rest, ad, ex, fl =>
    match process_article db coll a with
    | (.added, db2) => scrape_loop db2 coll rest (ad + 1) ex fl
    | (.existing, db2) => scrape_loop db2 coll rest ad (ex + 1) fl
    | (.failed, db2) => scrape_loop db2 coll rest ad ex (fl + 1)

/-- The JSON summary returned by `handle_scrape_task`.  Error responses
(403/500) carry only a status and message in the Python code; their count
fields are zero here. -/
structure ScrapeResponse where
  status : Nat
  articles_processed : Nat
  articles_added : Nat
  articles_failed_or_skipped : Nat
deriving DecidableEq, Repr

/-- `handle_scrape_task` (`app/main.py`).  `schedOk` is the outcome of
`verify_scheduler_request`, and `soup` the outcome of
`scrape_google_news_page` (`None` on any fetch/parse failure); both are
inputs here because they only observe the request and the network. -/
def handle_scrape_task (schedOk : Bool) (db : Option Firestore)
    (soup : Option Soup) (google_news_url : String) (cfg : ScraperConfig)
    (coll : String) : ScrapeResponse × Option Firestore :=
  if !schedOk then (⟨403, 0, 0, 0⟩, db)
  else
    match db with
    | none => (⟨500, 0, 0, 0⟩, none)
    | some fs =>
      match soup with
      | none => (⟨500, 0, 0, 0⟩, some fs)
      | some s =>
        let extracted := extract_articles_from_soup (some s) google_news_url cfg
        if extracted.isEmpty then (⟨200, 0, 0, 0⟩, some fs)
        else
          let r := scrape_loop (some fs) coll extracted 0 0 0
          (⟨200, extracted.length, r.added, r.failed⟩, r.db)

/-! ## `app/main.py`: the persisted-news retrieval handler -/

/-- Insert into a list kept in descending `scraped_at` order. -/
def insertDesc (d : String × ArticleDoc) :
    List (String × ArticleDoc) → List (String × ArticleDoc)
  | [] => [d]
  | x :: xs =>
    if d.2.scraped_at ≤ x.2.scraped_at then x :: insertDesc d xs
    else d :: x :: xs

/-- The Firestore query of `get_google_news`: the documents of the
collection, tagged with their ids, ordered by `scraped_at` descending. -/
def queryDesc (fs : Firestore) (coll : String) : List (String × ArticleDoc) :=
  (fs.docs.filter (fun p => p.1.1 == coll)).foldl
    (fun acc p => insertDesc (p.1.2, p.2) acc) []

/-- The JSON response of `get_google_news`.  Articles are `(doc id, doc)`
pairs; the clamped pagination values are echoed on the 200 responses and
absent from error responses, as in the Python handler. -/
structure NewsResponse where
  status : Nat
  articles : List (String × ArticleDoc)
  lim : Option Int
  off : Option Int
deriving DecidableEq, Repr

/-- `MAX_ARTICLES_LIMIT` (`app/main.py`). -/
def MAX_ARTICLES_LIMIT : Int := 100

/-- `DEFAULT_ARTICLES_LIMIT` (`app/main.py`). -/
def DEFAULT_ARTICLES_LIMIT : String := "20"

/-- `get_google_news` (`app/main.py`): 500 when the client is missing or
the query raises, 400 when `int()` rejects a pagination parameter, else
the page of stored documents selected by the clamped limit/offset. -/
def get_google_news (db : Option Firestore) (coll : String)
    (limitArg offsetArg : Option String) : NewsResponse :=
  match db with
  | none => ⟨500, [], none, none⟩
  | some fs =>
    match pyInt? (limitArg.getD DEFAULT_ARTICLES_LIMIT), pyInt? (offsetArg.getD "0") with
    | some l0, some o0 =>
      let lim := max 0 (min l0 MAX_ARTICLES_LIMIT)
      let off := max 0 o0
      if fs.queryFails then ⟨500, [], none, none⟩
      else
        let docs := queryDesc fs coll
        if off > 0 ∧ docs.isEmpty then ⟨200, [], some lim, some off⟩
        else ⟨200, (docs.drop off.toNat).take lim.toNat, some lim, some off⟩
    | _, _ => ⟨400, [], none, none⟩

/-! ## Auxiliary definitions used by the statements -/

/-- The documents held by a possibly-absent store. -/
def docsOf : Option Firestore → List ((String × String) × ArticleDoc)
  | none => []
  | some fs => fs.docs

/-- Iterate the persistence flow for one article `n` times. -/
def persistIter (coll : String) (a : ArticleData) : Nat → Option Firestore → Option Firestore
  | 0, db => db
  | n + 1, db => persistIter coll a n (process_article db coll a).2

/-! ## Concrete fixtures (mirroring `tests/test_scraper.py`) -/

/-- The selector configuration of `app/config.py` and the test suite. -/
def cfgTest : ScraperConfig :=
  ⟨"article.MQsxIb", "a.DY5qte", "a.DY5qte", "div.wEwyrc", some "span.xBbh9"⟩

/-- `cfgTest` with no snippet selector configured. -/
def cfgNoSnip : ScraperConfig :=
  ⟨"article.MQsxIb", "a.DY5qte", "a.DY5qte", "div.wEwyrc", none⟩

/-- A leaf element carrying only text. -/
def leafText (t : String) : Element := .mk (fun _ => none) t none

/-- A leaf element carrying text and an `href`. -/
def leafLink (t href : String) : Element := .mk (fun _ => none) t (some href)

/-- A complete article block from the mock page. -/
def blockA : Element :=
  .mk (fun sel =>
        if sel = "a.DY5qte" then some (leafLink "Real Title 1" "./articles/real-article-1")
        else if sel = "div.wEwyrc" then some (leafText "Source One")
        else if sel = "span.xBbh9" then some (leafText "Snippet for article one.")
        else none)
      "" none

/-- A page containing the single block `blockA`. -/
def soupA : Soup := ⟨fun sel => if sel = "article.MQsxIb" then [blockA] else []⟩

/-- An article block whose link is the bare fragment `#`. -/
def blockHash : Element :=
  .mk (fun sel =>
        if sel = "a.DY5qte" then some (leafLink "Title" "#")
        else if sel = "div.wEwyrc" then some (leafText "Source One")
        else none)
      "" none

/-- A page containing the single block `blockHash`. -/
def soupHash : Soup := ⟨fun sel => if sel = "article.MQsxIb" then [blockHash] else []⟩

/-- A page with no article containers. -/
def soupEmpty : Soup := ⟨fun _ => []⟩

/-- An article dict as built by the extractor. -/
def artA : ArticleData :=
  ⟨"Real Title 1", "https://a.test/x", "Source One", none, "https://a.test/x"⟩

/-- The record the extractor produces from `blockA` on the mock page. -/
def artExtractedA : ArticleData :=
  ⟨"Real Title 1", "https://mock.news.google.com/articles/real-article-1",
   "Source One", some "Snippet for article one.",
   "https://mock.news.google.com/articles/real-article-1"⟩

/-- A healthy, empty store. -/
def fsEmpty : Firestore := ⟨[], 0, false, false, false⟩

/-- A store whose lookups and writes both raise. -/
def fsBroken : Firestore := ⟨[], 0, true, true, false⟩

/-- A store that reads fine but whose writes raise. -/
def fsWriteFail : Firestore := ⟨[], 0, false, true, false⟩

/-! # Theorems -/

/-! The model of `hashlib.sha256` reproduces the FIPS 180-4 test vectors. -/

set_option maxRecDepth 10000 in
example :
    sha256Hex [] =
      "e3b0c44298fc1c149afbf4c8996fb92427ae41e4649b934ca495991b7852b855" := by
  decide

set_option maxRecDepth 10000 in
example :
    sha256Hex (utf8Encode "abc") =
      "ba7816bf8f01cfea414140de5dae2223b00361a396177a9cb410ff61f20015ad" := by
  decide

/-- C3: `create_article_doc_id` is a deterministic pure function of the
article URL string: equal URL strings yield the same identifier, and the
identifier is the SHA-256 hex digest of the UTF-8 encoding of the URL. -/
theorem create_article_doc_id_deterministic (u v : String) (h : u = v) :
    create_article_doc_id u = create_article_doc_id v ∧
    create_article_doc_id u = sha256Hex (utf8Encode u) := by
  subst h
  exact ⟨rfl, rfl⟩

theorem create_article_doc_id_deterministic_witness :
    create_article_doc_id "https://a.test/x" = create_article_doc_id "https://a.test/x" ∧
    create_article_doc_id "https://a.test/x" = sha256Hex (utf8Encode "https://a.test/x") :=
  create_article_doc_id_deterministic "https://a.test/x" "https://a.test/x" rfl

/-- C1: when the store client is `None`, or the store's operations raise,
`check_article_exists` returns `True` (never `False`) and
`save_new_article` returns `False`.  Both embedded functions are total, so
no exception escapes their boundary. -/
theorem fail_safe_exists_and_save (db : Option Firestore) (coll doc_id : String)
    (a : ArticleData)
    (h : db = none ∨ ∃ fs, db = some fs ∧ fs.getFails = true ∧ fs.setFails = true) :
    check_article_exists db coll doc_id = true ∧
    (save_new_article db coll doc_id a).1 = false := by
  rcases h with h | ⟨fs, h, hg, hs⟩
  · subst h
    exact ⟨rfl, rfl⟩
  · subst h
    simp [check_article_exists, save_new_article, hg, hs]

theorem fail_safe_exists_and_save_witness :
    (check_article_exists none "news" "d1" = true ∧
     (save_new_article none "news" "d1" artA).1 = false) ∧
    (check_article_exists (some fsBroken) "news" "d1" = true ∧
     (save_new_article (some fsBroken) "news" "d1" artA).1 = false) :=
  ⟨fail_safe_exists_and_save none "news" "d1" artA (Or.inl rfl),
   fail_safe_exists_and_save (some fsBroken) "news" "d1" artA
     (Or.inr ⟨fsBroken, rfl, rfl, rfl⟩)⟩

/-- C8: the extractor returns the empty list, without raising, when the
document is absent, when a required selector is empty or missing, or when
the container selector matches no element. -/
theorem extract_empty_on_degenerate_input (soup : Option Soup) (base : String)
    (cfg : ScraperConfig)
    (h : soup = none ∨ cfg.container_selector = "" ∨ cfg.title_selector = "" ∨
         cfg.link_selector = "" ∨ cfg.source_selector = "" ∨
         (∃ s, soup = some s ∧ s.select cfg.container_selector = [])) :
    extract_articles_from_soup soup base cfg = [] := by
  rcases h with h | h | h | h | h | ⟨s, hs, hsel⟩
  · subst h
    rfl
  · cases soup with
    | none => rfl
    | some s2 => simp [extract_articles_from_soup, h]
  · cases soup with
    | none => rfl
    | some s2 => simp [extract_articles_from_soup, h]
  · cases soup with
    | none => rfl
    | some s2 => simp [extract_articles_from_soup, h]
  · cases soup with
    | none => rfl
    | some s2 => simp [extract_articles_from_soup, h]
  · subst hs
    simp [extract_articles_from_soup, hsel]

theorem extract_empty_on_degenerate_input_witness :
    extract_articles_from_soup none "https://news.google.com/" cfgTest = [] ∧
    extract_articles_from_soup (some soupEmpty) "https://news.google.com/" cfgTest = [] :=
  ⟨extract_empty_on_degenerate_input none _ cfgTest (Or.inl rfl),
   extract_empty_on_degenerate_input (some soupEmpty) _ cfgTest
     (Or.inr (Or.inr (Or.inr (Or.inr (Or.inr ⟨soupEmpty, rfl, rfl⟩)))))⟩

/-- C10: for a block whose title, link and source are present and truthy,
a record is always emitted, and its snippet distinguishes absence from
emptiness: it is `None` when no snippet selector is configured (absent or
empty-string selector) or when the selector matches nothing in the block,
and it is the empty string when a snippet element exists whose stripped
text is empty. -/
theorem snippet_absent_vs_empty (cfg : ScraperConfig) (base : String) (el : Element)
    (t l src : String)
    (ht : (el.select_one cfg.title_selector).map Element.get_text = some t)
    (hl : (el.select_one cfg.link_selector).bind Element.get_href = some l)
    (hs : (el.select_one cfg.source_selector).map Element.get_text = some src)
    (ht2 : t ≠ "") (hl2 : l ≠ "") (hs2 : src ≠ "") :
    ((cfg.snippet_selector = none ∨ cfg.snippet_selector = some "") →
       processElement cfg base el =
         some ⟨t, resolve_url base l, src, none, resolve_url base l⟩) ∧
    (∀ sel, cfg.snippet_selector = some sel → sel ≠ "" → el.select_one sel = none →
       processElement cfg base el =
         some ⟨t, resolve_url base l, src, none, resolve_url base l⟩) ∧
    (∀ sel e, cfg.snippet_selector = some sel → sel ≠ "" → el.select_one sel = some e →
       Element.get_text e = "" →
       processElement cfg base el =
         some ⟨t, resolve_url base l, src, some "", resolve_url base l⟩) := by
  refine ⟨?_, ?_, ?_⟩
  · rintro (hsn | hsn) <;>
      simp [processElement, ht, hl, hs, ht2, hl2, hs2, hsn]
  · intro sel hsn hne hnone
    simp [processElement, ht, hl, hs, ht2, hl2, hs2, hsn, hne, hnone]
  · intro sel e hsn hne hsome htext
    simp [processElement, ht, hl, hs, ht2, hl2, hs2, hsn, hne, hsome, htext]

theorem snippet_absent_vs_empty_witness :
    processElement cfgNoSnip "https://mock.news.google.com/" blockA =
      some ⟨"Real Title 1", "https://mock.news.google.com/articles/real-article-1",
            "Source One", none,
            "https://mock.news.google.com/articles/real-article-1"⟩ := by
  have h := (snippet_absent_vs_empty cfgNoSnip "https://mock.news.google.com/" blockA
    "Real Title 1" "./articles/real-article-1" "Source One"
    (by decide) (by decide) (by decide) (by decide) (by decide) (by decide)).1
    (Or.inl rfl)
  rw [h]
  decide

/-- C9: at the exit of the scrape-task storage loop the counter invariant
`processed = added + existing + failed` holds (the loop starts from zeros
and processes every extracted record), and consequently every response of
the handler satisfies `articles_added + articles_failed_or_skipped ≤
articles_processed`, with `articles_processed` equal to the number of
extracted records whenever the handler reaches extraction. -/
theorem scrape_counter_invariant :
    (∀ db coll arts ad ex fl,
       (scrape_loop db coll arts ad ex fl).added +
         (scrape_loop db coll arts ad ex fl).existing +
         (scrape_loop db coll arts ad ex fl).failed = ad + ex + fl + arts.length) ∧
    (∀ schedOk db soup url cfg coll,
       (handle_scrape_task schedOk db soup url cfg coll).1.articles_added +
         (handle_scrape_task schedOk db soup url cfg coll).1.articles_failed_or_skipped ≤
         (handle_scrape_task schedOk db soup url cfg coll).1.articles_processed) ∧
    (∀ fs s url cfg coll,
       (handle_scrape_task true (some fs) (some s) url cfg coll).1.articles_processed =
         (extract_articles_from_soup (some s) url cfg).length) := by
  have loopSum : ∀ coll arts db ad ex fl,
      (scrape_loop db coll arts ad ex fl).added +
        (scrape_loop db coll arts ad ex fl).existing +
        (scrape_loop db coll arts ad ex fl).failed = ad + ex + fl + arts.length := by
    intro coll arts
    induction arts with
    | nil => intro db ad ex fl; simp [scrape_loop]
    | cons a rest ih =>
      intro db ad ex fl
      simp only [scrape_loop]
      rcases hp : process_article db coll a with ⟨o, db2⟩
      cases o <;> simp only [] <;> rw [ih] <;> simp [List.length_cons] <;> omega
  refine ⟨fun db coll arts ad ex fl => loopSum coll arts db ad ex fl, ?_, ?_⟩
  · intro schedOk db soup url cfg coll
    cases schedOk with
    | false => simp [handle_scrape_task]
    | true =>
      cases db with
      | none => simp [handle_scrape_task]
      | some fs =>
        cases soup with
        | none => simp [handle_scrape_task]
        | some s =>
          by_cases hemp : (extract_articles_from_soup (some s) url cfg).isEmpty
          · simp [handle_scrape_task, hemp]
          · have := loopSum coll (extract_articles_from_soup (some s) url cfg)
              (some fs) 0 0 0
            simp [handle_scrape_task, hemp]
            omega
  · intro fs s url cfg coll
    simp only [handle_scrape_task]
    by_cases hemp : (extract_articles_from_soup (some s) url cfg).isEmpty
    · simp [hemp, List.isEmpty_iff.mp hemp]
    · simp [hemp]

/-- C7: on the persisted-news endpoint (with the store client available),
a `limit` or `offset` query parameter rejected by `int()` yields a 400
response; otherwise the effective limit is the supplied value (default 20)
clamped to `0..100` and the effective offset is the supplied value
(default 0) clamped to be non-negative, as echoed by the 200 response. -/
theorem get_google_news_param_validation (fs : Firestore) (coll : String)
    (limitArg offsetArg : Option String) :
    ((pyInt? (limitArg.getD DEFAULT_ARTICLES_LIMIT) = none ∨
        pyInt? (offsetArg.getD "0") = none) →
       (get_google_news (some fs) coll limitArg offsetArg).status = 400) ∧
    (∀ l0 o0 : Int, pyInt? (limitArg.getD DEFAULT_ARTICLES_LIMIT) = some l0 →
       pyInt? (offsetArg.getD "0") = some o0 → fs.queryFails = false →
       (get_google_news (some fs) coll limitArg offsetArg).status = 200 ∧
       (get_google_news (some fs) coll limitArg offsetArg).lim =
         some (max 0 (min l0 100)) ∧
       (get_google_news (some fs) coll limitArg offsetArg).off = some (max 0 o0)) := by
  constructor
  · intro h
    rcases hl : pyInt? (limitArg.getD DEFAULT_ARTICLES_LIMIT) with _ | l0
    · simp [get_google_news, hl]
    · rcases ho : pyInt? (offsetArg.getD "0") with _ | o0
      · simp [get_google_news, hl, ho]
      · rcases h with h | h
        · rw [hl] at h
          exact absurd h (by simp)
        · rw [ho] at h
          exact absurd h (by simp)
  · intro l0 o0 hl ho hq
    simp only [get_google_news, hl, ho, hq]
    rw [if_neg (by simp)]
    split
    · exact ⟨rfl, rfl, rfl⟩
    · exact ⟨rfl, rfl, rfl⟩

theorem get_google_news_param_validation_witness :
    (get_google_news (some fsEmpty) "google_news_articles"
        (some "-5") (some "abc")).status = 400 ∧
    (get_google_news (some fsEmpty) "google_news_articles" none none).status = 200 ∧
    (get_google_news (some fsEmpty) "google_news_articles" none none).lim = some 20 ∧
    (get_google_news (some fsEmpty) "google_news_articles" none none).off = some 0 := by
  have h400 := (get_google_news_param_validation fsEmpty "google_news_articles"
    (some "-5") (some "abc")).1 (Or.inr (by decide))
  have h200 := (get_google_news_param_validation fsEmpty "google_news_articles"
    none none).2 20 0 (by decide) (by decide) rfl
  refine ⟨h400, h200.1, ?_, ?_⟩
  · rw [h200.2.1]
    decide
  · rw [h200.2.2]
    decide

/-! Store lemmas shared by the persistence theorems. -/

theorem filter_key_of_filter_ne (docs : List ((String × String) × ArticleDoc))
    (k : String × String) :
    (docs.filter (fun p => p.1 != k)).filter (fun p => p.1 == k) = [] := by
  rw [List.filter_filter]
  have hfalse : ∀ p : (String × String) × ArticleDoc,
      ((p.1 != k) && (p.1 == k)) = false := by
    intro p
    cases hb : p.1 == k <;> simp [bne, hb]
  simp [hfalse]

theorem countKey_upsert (docs : List ((String × String) × ArticleDoc))
    (k : String × String) (d : ArticleDoc) :
    countKey (upsertDoc docs k d) k = 1 := by
  simp [countKey, upsertDoc, List.filter_append, filter_key_of_filter_ne]

theorem getDoc_upsert (docs : List ((String × String) × ArticleDoc))
    (k : String × String) (d : ArticleDoc) :
    getDoc (upsertDoc docs k d) k = some d := by
  have hnone : (docs.filter (fun p => p.1 != k)).find? (fun p => p.1 == k) = none := by
    rw [List.find?_eq_none]
    intro x hx
    have hne := (List.mem_filter.mp hx).2
    simp only [bne_iff_ne, ne_eq] at hne
    simp [hne]
  simp [getDoc, upsertDoc, List.find?_append, hnone, List.find?]

theorem any_key_eq_false (docs : List ((String × String) × ArticleDoc))
    (k : String × String) (h : countKey docs k = 0) :
    docs.any (fun p => p.1 == k) = false := by
  rw [List.any_eq_false]
  intro x hx hxk
  have hmem : x ∈ docs.filter (fun p => p.1 == k) := List.mem_filter.mpr ⟨hx, hxk⟩
  have := List.length_pos_of_mem hmem
  simp only [countKey] at h
  omega

theorem any_key_of_countKey_pos (docs : List ((String × String) × ArticleDoc))
    (k : String × String) (h : 0 < countKey docs k) :
    docs.any (fun p => p.1 == k) = true := by
  by_contra hc
  have hfalse : docs.any (fun p => p.1 == k) = false := by
    cases hany : docs.any (fun p => p.1 == k) with
    | false => rfl
    | true => exact absurd hany hc
  have hnil : docs.filter (fun p => p.1 == k) = [] := by
    rw [List.filter_eq_nil_iff]
    intro a ha
    have := List.any_eq_false.mp hfalse a ha
    simpa using this
  simp [countKey, hnil] at h

theorem persistIter_of_fixpoint (coll : String) (a : ArticleData) (db : Option Firestore)
    (h : process_article db coll a = (.existing, db)) :
    ∀ n, persistIter coll a n db = db := by
  intro n
  induction n with
  | zero => rfl
  | succ m ih => simp [persistIter, h, ih]

/-- C2: persisting the same link against a healthy store is idempotent.
Starting from a store holding no document for the link's stable id, the
first run of the persistence flow adds exactly one document under
`(collection, sha256(link))`; the second run finds it existing and leaves
the store untouched; after any positive number of runs exactly one
document with that id is stored.  Moreover `save_new_article` itself is an
upsert: saving twice under one id keeps a single document whose content is
the second write. -/
theorem persist_idempotent (fs : Firestore) (coll : String) (a : ArticleData)
    (hget : fs.getFails = false) (hset : fs.setFails = false)
    (hurl : a.article_url ≠ "")
    (h0 : countKey fs.docs (coll, create_article_doc_id a.article_url) = 0) :
    (process_article (some fs) coll a).1 = .added ∧
    countKey (docsOf (process_article (some fs) coll a).2)
      (coll, create_article_doc_id a.article_url) = 1 ∧
    process_article ((process_article (some fs) coll a).2) coll a =
      (.existing, (process_article (some fs) coll a).2) ∧
    (∀ n, countKey (docsOf (persistIter coll a n (some fs)))
        (coll, create_article_doc_id a.article_url) ≤ 1) ∧
    (∀ n, 1 ≤ n → countKey (docsOf (persistIter coll a n (some fs)))
        (coll, create_article_doc_id a.article_url) = 1) ∧
    (∀ (g : Firestore) (c i : String) (a1 a2 : ArticleData), g.setFails = false →
       countKey (docsOf (save_new_article
           ((save_new_article (some g) c i a1).2) c i a2).2) (c, i) = 1 ∧
       getDoc (docsOf (save_new_article
           ((save_new_article (some g) c i a1).2) c i a2).2) (c, i) =
         some ⟨a2, g.now + 1⟩) := by
  have hany0 : fs.docs.any
      (fun p => p.1 == (coll, create_article_doc_id a.article_url)) = false :=
    any_key_eq_false _ _ h0
  have hstep1 : process_article (some fs) coll a =
      (.added, some { fs with
        docs := upsertDoc fs.docs (coll, create_article_doc_id a.article_url)
          ⟨a, fs.now⟩,
        now := fs.now + 1 }) := by
    simp [process_article, hurl, check_article_exists, hget, hany0,
      save_new_article, hset]
  have hcnt1 : countKey (upsertDoc fs.docs (coll, create_article_doc_id a.article_url)
      ⟨a, fs.now⟩) (coll, create_article_doc_id a.article_url) = 1 :=
    countKey_upsert _ _ _
  have hstep2 : process_article ((process_article (some fs) coll a).2) coll a =
      (.existing, (process_article (some fs) coll a).2) := by
    rw [hstep1]
    have hany1 : (upsertDoc fs.docs (coll, create_article_doc_id a.article_url)
        ⟨a, fs.now⟩).any
        (fun p => p.1 == (coll, create_article_doc_id a.article_url)) = true :=
      any_key_of_countKey_pos _ _ (by omega)
    simp [process_article, hurl, check_article_exists, hget, hany1]
  have hiter : ∀ n, 1 ≤ n → persistIter coll a n (some fs) =
      (process_article (some fs) coll a).2 := by
    intro n hn
    cases n with
    | zero => omega
    | succ m =>
      show persistIter coll a m (process_article (some fs) coll a).2 = _
      exact persistIter_of_fixpoint coll a _ hstep2 m
  refine ⟨by rw [hstep1], by rw [hstep1]; exact hcnt1, hstep2, ?_, ?_, ?_⟩
  · intro n
    cases n with
    | zero =>
      simp only [persistIter, docsOf]
      omega
    | succ m =>
      rw [hiter (m + 1) (by omega), hstep1]
      simpa [docsOf] using Nat.le_of_eq hcnt1
  · intro n hn
    rw [hiter n hn, hstep1]
    simpa [docsOf] using hcnt1
  · intro g c i a1 a2 hgset
    have hsave1 : save_new_article (some g) c i a1 =
        (true, some { g with docs := upsertDoc g.docs (c, i) ⟨a1, g.now⟩,
                             now := g.now + 1 }) := by
      simp [save_new_article, hgset]
    rw [hsave1]
    have hsave2 : save_new_article
        (some { g with docs := upsertDoc g.docs (c, i) ⟨a1, g.now⟩,
                       now := g.now + 1 }) c i a2 =
        (true, some { g with
          docs := upsertDoc (upsertDoc g.docs (c, i) ⟨a1, g.now⟩) (c, i)
            ⟨a2, g.now + 1⟩,
          now := g.now + 2 }) := by
      simp [save_new_article, hgset]
    rw [hsave2]
    exact ⟨countKey_upsert _ _ _, getDoc_upsert _ _ _⟩

theorem persist_idempotent_witness :
    countKey fsEmpty.docs
      ("google_news_articles", create_article_doc_id artA.article_url) = 0 ∧
    (process_article (some fsEmpty) "google_news_articles" artA).1 = .added ∧
    countKey (docsOf (process_article (some fsEmpty) "google_news_articles" artA).2)
      ("google_news_articles", create_article_doc_id artA.article_url) = 1 := by
  have h := persist_idempotent fsEmpty "google_news_articles" artA rfl rfl
    (by decide) rfl
  exact ⟨rfl, h.1, h.2.1⟩

/-- C4 fails on the code: when the document store client is unavailable
(`db is None`) the scrape-task handler does not continue processing — it
fails the whole call with an HTTP 500 error response. -/
theorem scrape_task_store_down_counterexample :
    (handle_scrape_task true none (some soupA) "https://news.google.com/" cfgTest
        "google_news_articles").1.status = 500 ∧
    (handle_scrape_task true none (some soupA) "https://news.google.com/" cfgTest
        "google_news_articles").1.status ≠ 200 :=
  ⟨rfl, by decide⟩

/-- C4 (amended): when the document store client is unavailable the
scrape-task handler fails the whole call with a 500 response; when the
client is available but its writes fail, the handler still returns 200 —
processing continues — and every storage failure is reported in the
`articles_failed_or_skipped` count of the response (the response carries
no error list). -/
theorem scrape_task_storage_behaviour (soup : Option Soup) (url : String)
    (cfg : ScraperConfig) (coll : String) :
    (handle_scrape_task true none soup url cfg coll).1.status = 500 ∧
    (∀ fs s, soup = some s → fs.setFails = true → fs.getFails = false →
       fs.docs = [] →
       (handle_scrape_task true (some fs) soup url cfg coll).1.status = 200 ∧
       (handle_scrape_task true (some fs) soup url cfg coll).1.articles_added = 0 ∧
       (handle_scrape_task true (some fs) soup url cfg coll).1.articles_failed_or_skipped =
         (handle_scrape_task true (some fs) soup url cfg coll).1.articles_processed) := by
  constructor
  · rfl
  · intro fs s hs hsset hgget hdocs
    subst hs
    have hproc : ∀ a2 : ArticleData,
        process_article (some fs) coll a2 = (.failed, some fs) := by
      intro a2
      by_cases hu : a2.article_url = ""
      · simp [process_article, hu]
      · simp [process_article, hu, check_article_exists, hgget, hdocs,
          save_new_article, hsset]
    have hloop : ∀ arts ad ex fl,
        scrape_loop (some fs) coll arts ad ex fl = ⟨ad, ex, fl + arts.length, some fs⟩ := by
      intro arts
      induction arts with
      | nil => intro ad ex fl; simp [scrape_loop]
      | cons a rest ih =>
        intro ad ex fl
        simp only [scrape_loop, hproc, ih, List.length_cons]
        congr 1
        omega
    by_cases hemp : (extract_articles_from_soup (some s) url cfg).isEmpty
    · simp [handle_scrape_task, hemp]
    · simp [handle_scrape_task, hemp, hloop]

theorem scrape_task_storage_behaviour_witness :
    (handle_scrape_task true (some fsWriteFail) (some soupA)
        "https://mock.news.google.com/" cfgTest "google_news_articles").1.status = 200 ∧
    (handle_scrape_task true (some fsWriteFail) (some soupA)
        "https://mock.news.google.com/" cfgTest
        "google_news_articles").1.articles_added = 0 ∧
    (handle_scrape_task true (some fsWriteFail) (some soupA)
        "https://mock.news.google.com/" cfgTest
        "google_news_articles").1.articles_failed_or_skipped =
      (handle_scrape_task true (some fsWriteFail) (some soupA)
        "https://mock.news.google.com/" cfgTest
        "google_news_articles").1.articles_processed ∧
    (handle_scrape_task true (some fsWriteFail) (some soupA)
        "https://mock.news.google.com/" cfgTest
        "google_news_articles").1.articles_processed = 1 := by
  have h := (scrape_task_storage_behaviour (some soupA)
    "https://mock.news.google.com/" cfgTest "google_news_articles").2
    fsWriteFail soupA rfl rfl rfl rfl
  exact ⟨h.1, h.2.1, h.2.2, by decide⟩

/-! Lemmas about the `urllib.parse` model. -/

theorem append_ne_empty_left (s t : String) (h : s ≠ "") : s ++ t ≠ "" := by
  intro he
  apply h
  obtain ⟨ds⟩ := s
  obtain ⟨dt⟩ := t
  have hd : ds ++ dt = [] := congrArg String.data he
  have h1 : ds = [] := (List.append_eq_nil.mp hd).1
  rw [h1]

theorem append_ne_empty_right (s t : String) (h : t ≠ "") : s ++ t ≠ "" := by
  intro he
  apply h
  obtain ⟨ds⟩ := s
  obtain ⟨dt⟩ := t
  have hd : ds ++ dt = [] := congrArg String.data he
  have h1 : dt = [] := (List.append_eq_nil.mp hd).2
  rw [h1]

theorem urlunsplit_ne_empty (r : SplitResult) (h : r.scheme ≠ "") :
    urlunsplit r ≠ "" := by
  have hcore : ∀ u : String, r.scheme ++ ":" ++ u ≠ "" := fun u =>
    append_ne_empty_left _ _ (append_ne_empty_right _ _ (by decide))
  by_cases hf : r.fragment = "" <;> by_cases hq : r.query = "" <;>
    simp [urlunsplit, hf, hq, h] <;>
    first
      | exact hcore _
      | exact append_ne_empty_left _ _ (hcore _)
      | exact append_ne_empty_left _ _ (append_ne_empty_left _ _ (hcore _))
      | exact append_ne_empty_left _ _
          (append_ne_empty_left _ _ (append_ne_empty_left _ _ (hcore _)))
      | exact append_ne_empty_left _ _ (append_ne_empty_left _ _
          (append_ne_empty_left _ _ (append_ne_empty_left _ _ (hcore _))))

theorem splitScheme_ne_nil (cs : List Char) (pr : List Char × List Char)
    (hs : splitScheme cs = some pr) : pr.1 ≠ [] := by
  cases cs with
  | nil => simp [splitScheme] at hs
  | cons c rest =>
    simp only [splitScheme] at hs
    split at hs
    · split at hs
      · split at hs
        · obtain rfl := Option.some.inj hs
          simp
        · exact absurd hs (by simp)
      · exact absurd hs (by simp)
    · exact absurd hs (by simp)

theorem urlsplit_some_indep (l : String) (d : String) (pr : List Char × List Char)
    (hs : splitScheme l.toList = some pr) : urlsplit l d = urlsplit l "" := by
  obtain ⟨sch, rest⟩ := pr
  simp only [String.toList] at hs
  simp only [urlsplit, String.toList, hs]

theorem urlsplit_some_scheme_ne (l d : String) (pr : List Char × List Char)
    (hs : splitScheme l.toList = some pr) : (urlsplit l d).scheme ≠ "" := by
  obtain ⟨sch, rest⟩ := pr
  have hne := splitScheme_ne_nil l.toList (sch, rest) hs
  simp only [String.toList] at hs
  simp only [urlsplit, String.toList, hs]
  intro he
  exact hne (congrArg String.data he)

theorem urlsplit_none (l d : String) (hs : splitScheme l.toList = none) :
    urlsplit l d = { urlsplit l "" with scheme := d } := by
  simp only [String.toList] at hs
  simp only [urlsplit, String.toList, hs]

theorem urlsplit_scheme_empty_of_none (l : String) (hs : splitScheme l.toList = none) :
    (urlsplit l "").scheme = "" := by
  simp only [String.toList] at hs
  simp only [urlsplit, String.toList, hs]

theorem contains_netloc_of_contains_relative (s : String)
    (h : uses_relative.contains s = true) : uses_netloc.contains s = true := by
  have hm : s ∈ uses_relative := by simpa using h
  simp only [uses_relative, List.mem_cons, List.not_mem_nil, or_false] at hm
  rcases hm with rfl|rfl|rfl|rfl|rfl|rfl|rfl|rfl|rfl|rfl|rfl|rfl|rfl|rfl|rfl|rfl|rfl|rfl|rfl|rfl <;>
    decide

theorem urljoin_ne_empty (base link : String)
    (hb : (urlsplit base "").scheme ≠ "") (hl : link ≠ "") :
    urljoin base link ≠ "" := by
  have hbne : base ≠ "" := by
    intro hbe
    rw [hbe] at hb
    exact hb rfl
  simp only [urljoin]
  rw [if_neg hbne, if_neg hl]
  split
  · exact hl
  · next hcond =>
    rcases not_or.mp hcond with ⟨hsch, _⟩
    have hscheme : (urlsplit link (urlsplit base "").scheme).scheme =
        (urlsplit base "").scheme := not_ne_iff.mp hsch
    split
    · exact urlunsplit_ne_empty _ (by simpa [hscheme] using hb)
    · split
      · exact urlunsplit_ne_empty _ (by simpa [hscheme] using hb)
      · exact urlunsplit_ne_empty _ (by simpa [hscheme] using hb)

/-- C6 fails as universally stated: an absolute href is not always returned
unchanged.  When the href's scheme matches the base's, `urljoin`
reassembles the href from its parse, lowercasing the scheme: joining
`HTTP://c/d` onto base `http://a/b` yields `http://c/d`, not the href. -/
theorem resolve_url_absolute_changed_counterexample :
    resolve_url "http://a/b" "HTTP://c/d" = "http://c/d" ∧
    resolve_url "http://a/b" "HTTP://c/d" ≠ "HTTP://c/d" := by
  constructor
  · decide
  · decide

/-- C6 (amended): `_resolve_url` is exactly the standard library URL-join.
An absolute href (own scheme and authority) that is in canonical form —
its recomposition from its parse is itself — is returned unchanged, for
every base URL.  A relative href (no scheme, no authority, nonempty path)
against a nonempty base whose scheme supports relative resolution is
resolved by inheriting the base's scheme and host and merging the path
segments with `.`/`..` normalization. -/
theorem resolve_url_standard_join :
    (∀ base link, resolve_url base link = urljoin base link) ∧
    (∀ base link, (urlsplit link "").scheme ≠ "" → (urlsplit link "").netloc ≠ "" →
       urlunsplit (urlsplit link "") = link →
       resolve_url base link = link) ∧
    (∀ base link, base ≠ "" → link ≠ "" → (urlsplit link "").scheme = "" →
       (urlsplit link "").netloc = "" → (urlsplit link "").path ≠ "" →
       uses_relative.contains (urlsplit base "").scheme = true →
       resolve_url base link =
         urlunsplit ⟨(urlsplit base "").scheme, (urlsplit base "").netloc,
           joinResolvePath (urlsplit base "").path (urlsplit link "").path,
           (urlsplit link "").query, (urlsplit link "").fragment⟩) := by
  refine ⟨fun base link => rfl, ?_, ?_⟩
  · intro base link h1 h2 h3
    have hlink : link ≠ "" := by
      intro he
      rw [he] at h1
      exact h1 rfl
    by_cases hb : base = ""
    · simp [resolve_url, urljoin, hb]
    · have hsome : ∃ pr, splitScheme link.toList = some pr := by
        cases hsp : splitScheme link.toList with
        | none => exact absurd (urlsplit_scheme_empty_of_none link hsp) h1
        | some pr => exact ⟨pr, rfl⟩
      obtain ⟨pr, hsp⟩ := hsome
      have hind := urlsplit_some_indep link (urlsplit base "").scheme pr hsp
      simp only [resolve_url, urljoin]
      rw [if_neg hb, if_neg hlink, hind]
      split
      · rfl
      · next hcond =>
        rcases not_or.mp hcond with ⟨_, hrel⟩
        have hrel2 : uses_relative.contains (urlsplit link "").scheme = true :=
          of_not_not hrel
        have hnet : uses_netloc.contains (urlsplit link "").scheme = true :=
          contains_netloc_of_contains_relative _ hrel2
        rw [if_pos ⟨hnet, h2⟩]
        exact h3
  · intro base link hb0 hl0 h1 h2 h3 hrel
    have hs : splitScheme link.toList = none := by
      cases hsp : splitScheme link.toList with
      | none => rfl
      | some pr => exact absurd h1 (urlsplit_some_scheme_ne link "" pr hsp)
    have hd := urlsplit_none link (urlsplit base "").scheme hs
    have hmemr : (urlsplit base "").scheme ∈ uses_relative := by simpa using hrel
    simp only [resolve_url, urljoin]
    rw [if_neg hb0, if_neg hl0, hd]
    have hcond1 : ¬(({ urlsplit link "" with
          scheme := (urlsplit base "").scheme } : SplitResult).scheme ≠
            (urlsplit base "").scheme ∨
        ¬ uses_relative.contains ({ urlsplit link "" with
          scheme := (urlsplit base "").scheme } : SplitResult).scheme = true) := by
      simp [hrel, hmemr]
    rw [if_neg hcond1]
    have hcond2 : ¬(uses_netloc.contains ({ urlsplit link "" with
          scheme := (urlsplit base "").scheme } : SplitResult).scheme = true ∧
        ({ urlsplit link "" with
          scheme := (urlsplit base "").scheme } : SplitResult).netloc ≠ "") := by
      simp [h2]
    rw [if_neg hcond2]
    have hnet : uses_netloc.contains ({ urlsplit link "" with
        scheme := (urlsplit base "").scheme } : SplitResult).scheme = true := by
      simpa using contains_netloc_of_contains_relative _ hrel
    rw [if_pos hnet]
    rw [if_neg (by simpa using h3)]

theorem resolve_url_standard_join_witness :
    resolve_url "https://mock.news.google.com/" "http://absolute.com/article-2" =
      "http://absolute.com/article-2" ∧
    resolve_url "https://mock.news.google.com/" "./articles/real-article-1" =
      urlunsplit ⟨(urlsplit "https://mock.news.google.com/" "").scheme,
        (urlsplit "https://mock.news.google.com/" "").netloc,
        joinResolvePath (urlsplit "https://mock.news.google.com/" "").path
          (urlsplit "./articles/real-article-1" "").path,
        (urlsplit "./articles/real-article-1" "").query,
        (urlsplit "./articles/real-article-1" "").fragment⟩ ∧
    resolve_url "https://mock.news.google.com/" "./articles/real-article-1" =
      "https://mock.news.google.com/articles/real-article-1" := by
  refine ⟨?_, ?_, by decide⟩
  · exact resolve_url_standard_join.2.1 "https://mock.news.google.com/"
      "http://absolute.com/article-2" (by decide) (by decide) (by decide)
  · exact resolve_url_standard_join.2.2 "https://mock.news.google.com/"
      "./articles/real-article-1" (by decide) (by decide) (by decide) (by decide)
      (by decide) (by decide)

/-- Inversion for the per-element extraction step: an emitted record has a
truthy title and source, and its link is the resolution of a truthy raw
href found in the block. -/
theorem processElement_fields (cfg : ScraperConfig) (base : String) (el : Element)
    (r : ArticleData) (h : processElement cfg base el = some r) :
    r.title ≠ "" ∧ r.source_name ≠ "" ∧
      ∃ raw, raw ≠ "" ∧ r.article_url = resolve_url base raw := by
  simp only [processElement] at h
  split at h
  · next t raw src heq1 heq2 heq3 =>
    split at h
    · exact absurd h (by simp)
    · next hcond =>
      push_neg at hcond
      obtain ⟨h1, h2, h3⟩ := hcond
      obtain rfl := Option.some.inj h
      exact ⟨h1, h3, raw, h2, rfl⟩
  · exact absurd h (by simp)

/-- C5 fails as stated: a record emitted by the extractor can carry an
empty link.  With base URL `#` and a block whose href is `#`, the URL-join
of base and href is the empty string, yet the record is emitted (its
title and source are present). -/
theorem extract_empty_link_counterexample :
    (extract_articles_from_soup (some soupHash) "#" cfgTest).map
        (fun r => r.article_url) = [""] ∧
    (extract_articles_from_soup (some soupHash) "#" cfgTest).length = 1 := by
  constructor
  · decide
  · decide

/-- C5 (amended): every record output by the extractor has a non-empty
title, a non-empty source, and a link equal to the URL-join of the base
URL with a non-empty href taken from the block; whenever the base URL
carries a scheme (as the configured absolute news URL does), the link is
also non-empty.  A container block whose title text, link href, or source
text is missing or empty contributes no record. -/
theorem extract_records_valid (soup : Option Soup) (base : String)
    (cfg : ScraperConfig) :
    (∀ r ∈ extract_articles_from_soup soup base cfg,
       r.title ≠ "" ∧ r.source_name ≠ "" ∧
       (∃ raw, raw ≠ "" ∧ r.article_url = resolve_url base raw) ∧
       ((urlsplit base "").scheme ≠ "" → r.article_url ≠ "")) ∧
    (∀ el : Element,
       (((el.select_one cfg.title_selector).map Element.get_text).getD "" = "" ∨
        ((el.select_one cfg.link_selector).bind Element.get_href).getD "" = "" ∨
        ((el.select_one cfg.source_selector).map Element.get_text).getD "" = "") →
       processElement cfg base el = none) := by
  constructor
  · intro r hr
    have hfields : r.title ≠ "" ∧ r.source_name ≠ "" ∧
        ∃ raw, raw ≠ "" ∧ r.article_url = resolve_url base raw := by
      cases soup with
      | none => simp [extract_articles_from_soup] at hr
      | some s =>
        simp only [extract_articles_from_soup] at hr
        split at hr
        · simp at hr
        · split at hr
          · simp at hr
          · obtain ⟨el, _, hel⟩ := List.mem_filterMap.mp hr
            exact processElement_fields cfg base el r hel
    obtain ⟨h1, h2, raw, hraw, hurl⟩ := hfields
    refine ⟨h1, h2, ⟨raw, hraw, hurl⟩, ?_⟩
    intro hbscheme
    rw [hurl]
    exact urljoin_ne_empty base raw hbscheme hraw
  · intro el hmiss
    rcases hT : (el.select_one cfg.title_selector).map Element.get_text with _ | t
    · simp [processElement, hT]
    rcases hL : (el.select_one cfg.link_selector).bind Element.get_href with _ | raw
    · simp [processElement, hT, hL]
    rcases hS : (el.select_one cfg.source_selector).map Element.get_text with _ | src
    · simp [processElement, hT, hL, hS]
    simp only [hT, hL, hS, Option.getD_some] at hmiss
    simp only [processElement, hT, hL, hS]
    rw [if_pos hmiss]

theorem extract_records_valid_witness :
    artExtractedA ∈ extract_articles_from_soup (some soupA)
      "https://mock.news.google.com/" cfgTest ∧
    artExtractedA.title ≠ "" ∧
    artExtractedA.article_url ≠ "" := by
  have hmem : artExtractedA ∈ extract_articles_from_soup (some soupA)
      "https://mock.news.google.com/" cfgTest := by decide
  have h := (extract_records_valid (some soupA) "https://mock.news.google.com/"
    cfgTest).1 artExtractedA hmem
  exact ⟨hmem, h.1, h.2.2.2 (by decide)⟩

end GNews
